import Mathlib

/-
Verification of the intent-routing program in main.py.

Python strings are embedded as `List Char` (ASCII fragment: the program's
labels, messages and the characters its claims exercise are ASCII).
Python's str.strip / str.lower / str.split / str.startswith / str.partition
are embedded as executable functions below; the response parser actually
bound at runtime (the second definition of parse_llm_response in the file)
and the per-turn dispatching body of main() are embedded as pure functions,
with the network-reaching adapters and the summarizer abstracted as an
environment of collaborators, so that what the dispatcher prints and which
collaborator it invokes is explicit in the result.
-/

namespace AgentRouter

/-- Whitespace characters removed by Python str.strip (ASCII fragment). -/
def pyIsSpace (c : Char) : Bool :=
  c = ' ' || c = '\t' || c = '\n' || c = '\r' || c = '\x0b' || c = '\x0c'

/-- The ASCII case table behind Python str.lower. -/
def lowerPairs : List (Char × Char) :=
  [('A', 'a'), ('B', 'b'), ('C', 'c'), ('D', 'd'), ('E', 'e'), ('F', 'f'),
   ('G', 'g'), ('H', 'h'), ('I', 'i'), ('J', 'j'), ('K', 'k'), ('L', 'l'),
   ('M', 'm'), ('N', 'n'), ('O', 'o'), ('P', 'p'), ('Q', 'q'), ('R', 'r'),
   ('S', 's'), ('T', 't'), ('U', 'u'), ('V', 'v'), ('W', 'w'), ('X', 'x'),
   ('Y', 'y'), ('Z', 'z')]

/-- Python str.lower on one character (ASCII fragment). -/
def pyLowerChar (c : Char) : Char :=
  ((lowerPairs.find? (fun p => p.1 == c)).map Prod.snd).getD c

/-- Python str.lower (ASCII fragment). -/
def pyLower (l : List Char) : List Char :=
  l.map pyLowerChar

/-- Python str.lstrip with no argument: drop leading whitespace. -/
def lstrip (l : List Char) : List Char :=
  l.dropWhile pyIsSpace

/-- Python str.rstrip with no argument: drop trailing whitespace. -/
def rstrip (l : List Char) : List Char :=
  (l.reverse.dropWhile pyIsSpace).reverse

/-- Python str.strip with no argument: drop whitespace at both ends. -/
def pyStrip (l : List Char) : List Char :=
  rstrip (lstrip l)

/-- Python query.split('(')[0]: the part of the string before its first
'(' character (the whole string when it has none). -/
def beforeParen (l : List Char) : List Char :=
  l.takeWhile (fun c => c != '(')

/-- The query normalization of main(): query.split('(')[0].strip().lower()
when query is truthy, the empty string otherwise. -/
def cleanQuery (q : List Char) : List Char :=
  if q = [] then [] else pyLower (pyStrip (beforeParen q))

/-- The valid_agents list of main(), identical to the label list the
runtime parser's bare-label fallback iterates over. -/
def valid_agents : List (List Char) :=
  [("crypto_asset").data, ("stock_asset").data,
   ("weather_asset").data, ("web_asset").data]

/-- The fallback loop of the runtime parse_llm_response: first label a with
response.lower().startswith(a + " ") wins, returning
(a, response[len(a)+1:].strip()); with no match, (None, response). -/
def bareLabelFallback (response : List Char) : List (List Char) → Option (List Char) × List Char
  | [] => (none, response)
  | a :: rest =>
    if List.isPrefixOf (a ++ [' ']) (pyLower response) then
      (some a, pyStrip (response.drop (a.length + 1)))
    else bareLabelFallback response rest

/-- The parse_llm_response bound at runtime (the second, overriding
definition in main.py): if the text starts with '[' and contains ']',
partition at the first ']', the bracket contents stripped are the agent
type and the tail stripped is the query; otherwise the bare-label
fallback runs. The body raises no exception, so the except branch that
would return (None, response) is dead. -/
def parse_llm_response (response : List Char) : Option (List Char) × List Char :=
  if response.head? = some '[' ∧ ']' ∈ response then
    (some (pyStrip ((response.takeWhile (fun c => c != ']')).drop 1)),
     pyStrip ((response.dropWhile (fun c => c != ']')).drop 1))
  else bareLabelFallback response valid_agents

/-- The rejection message of SearchAgents.crypto_asset. -/
def cryptoInvalidMsg : List Char :=
  ("Invalid cryptocurrency format - use names like \x27bitcoin\x27 not symbols.").data

/-- One character of the class [a-z\-] in the crypto validation regex. -/
def isCoinChar (c : Char) : Bool :=
  decide (('a' ≤ c ∧ c ≤ 'z') ∨ c = '-')

/-- Python re.match(r'^[a-z\-]+$', s) as a predicate: one or more
characters, each in [a-z\-]. (The $ anchor's tolerance of one trailing
newline is unreachable here: the argument was stripped first.) -/
def matchesCoinRe (s : List Char) : Bool :=
  !s.isEmpty && s.all isCoinChar

/-- How far SearchAgents.crypto_asset gets before any network I/O:
either it returns the invalid-format message without attempting a
request, or it proceeds to the CoinGecko request with the normalized
coin id. -/
inductive CryptoStep where
  | reject (msg : List Char) : CryptoStep
  | request (coinId : List Char) : CryptoStep
deriving DecidableEq

/-- SearchAgents.crypto_asset up to its network call: coin_id is
query.strip().lower(); when coin_id fails the regex the invalid-format
message is returned and no request is attempted, otherwise the request
for coin_id is issued. -/
def crypto_asset (query : List Char) : CryptoStep :=
  let coin_id := pyLower (pyStrip query)
  if matchesCoinRe coin_id then CryptoStep.request coin_id
  else CryptoStep.reject cryptoInvalidMsg

/-- One web search result record as built by SearchAgents.web_asset. -/
structure SearchItem where
  title : List Char
  link : List Char
  snippet : List Char

/-- What SearchAgents.web_asset returns: an error string, or a list of
up to three result records. -/
inductive WebResult where
  | str : List Char → WebResult
  | items : List SearchItem → WebResult

/-- The external collaborators of one dispatcher turn: the web adapter,
the non-web adapters (looked up by label), and summarize_results. Their
I/O behaviour is arbitrary; the dispatcher is verified against every
behaviour. -/
structure TurnEnv where
  webAsset : List Char → WebResult
  adapterResult : List Char → List Char → List Char
  summarizeResult : List Char → List SearchItem → List Char

/-- What one turn of the main() loop body does after the LLM reply is in
hand: the lines printed, which adapter label (if any) was invoked, and
whether summarize_results was invoked. -/
structure TurnOutcome where
  printed : List (List Char)
  adapterCalled : Option (List Char)
  summarizeCalled : Bool
deriving DecidableEq

/-- The numbered source lines printed for web results: one line
f"{idx}. {title}\n   {link}" per result, indices counting from the
given start. -/
def sourceLines : Nat → List SearchItem → List (List Char)
  | _, [] => []
  | i, r :: rs =>
    (Nat.toDigits 10 i ++ (". ").data ++ r.title ++ ("\n   ").data ++ r.link)
      :: sourceLines (i + 1) rs

/-- The dispatching body of main() for one turn, after parse_llm_response
produced (agentType, rawQuery): clean the query; a falsy agent type (None
or the empty string) prints the raw LLM response; a truthy label outside
valid_agents prints the unknown-agent notice and invokes nothing;
web_asset dispatches on the web adapter result, summarizing only a
non-empty item list; any other valid label invokes that adapter and
prints its string. -/
def route (env : TurnEnv) (agentType : Option (List Char))
    (rawQuery llmResponse : List Char) : TurnOutcome :=
  let query := cleanQuery rawQuery
  match agentType with
  | none =>
    { printed := [("Assistant: ").data ++ llmResponse],
      adapterCalled := none, summarizeCalled := false }
  | some a =>
    if a = [] then
      { printed := [("Assistant: ").data ++ llmResponse],
        adapterCalled := none, summarizeCalled := false }
    else if a ∉ valid_agents then
      { printed := [("Assistant: Unknown agent type: ").data ++ a],
        adapterCalled := none, summarizeCalled := false }
    else if a = ("web_asset").data then
      match env.webAsset query with
      | WebResult.str s =>
        { printed := [("Assistant: ").data ++ s],
          adapterCalled := some a, summarizeCalled := false }
      | WebResult.items [] =>
        { printed := [("Assistant: No relevant results found.").data],
          adapterCalled := some a, summarizeCalled := false }
      | WebResult.items (r :: rs) =>
        { printed :=
            [("Assistant: Here\x27s what I found about ").data ++ query ++ (":").data,
             env.summarizeResult query (r :: rs),
             ("\nSources:").data] ++ sourceLines 1 (r :: rs),
          adapterCalled := some a, summarizeCalled := true }
    else
      { printed := [("Assistant: ").data ++ env.adapterResult a query],
        adapterCalled := some a, summarizeCalled := false }

/-- One full turn of main() from the raw LLM response: parse, then route. -/
def runTurn (env : TurnEnv) (llmResponse : List Char) : TurnOutcome :=
  route env (parse_llm_response llmResponse).1 (parse_llm_response llmResponse).2
    llmResponse

/-- A concrete environment of collaborators, used to instantiate
universally quantified theorems at a closed input. -/
def trivialEnv : TurnEnv :=
  { webAsset := fun _ => WebResult.items [],
    adapterResult := fun _ _ => [],
    summarizeResult := fun _ _ => [] }

/-- Every right-hand side of the case table is a fixed point of the
lowering map. -/
theorem lowerPairs_snd_fixed : ∀ p ∈ lowerPairs, pyLowerChar p.2 = p.2 := by
  decide

/-- Neither side of the case table is whitespace. -/
theorem lowerPairs_not_space :
    ∀ p ∈ lowerPairs, pyIsSpace p.1 = false ∧ pyIsSpace p.2 = false := by
  decide

/-- No right-hand side of the case table is the character '('. -/
theorem lowerPairs_snd_ne_paren : ∀ p ∈ lowerPairs, p.2 ≠ '(' := by
  decide

/-- Lowering a character twice is lowering it once. -/
theorem pyLowerChar_idem (c : Char) : pyLowerChar (pyLowerChar c) = pyLowerChar c := by
  cases h : lowerPairs.find? (fun p => p.1 == c) with
  | none =>
    have hc : pyLowerChar c = c := by simp [pyLowerChar, h]
    rw [hc]
    exact hc
  | some p =>
    have hc : pyLowerChar c = p.2 := by simp [pyLowerChar, h]
    rw [hc]
    exact lowerPairs_snd_fixed p (List.mem_of_find?_eq_some h)

/-- Lowering preserves whitespace-status of a character. -/
theorem pyIsSpace_pyLowerChar (c : Char) : pyIsSpace (pyLowerChar c) = pyIsSpace c := by
  cases h : lowerPairs.find? (fun p => p.1 == c) with
  | none => simp [pyLowerChar, h]
  | some p =>
    have hc : pyLowerChar c = p.2 := by simp [pyLowerChar, h]
    have hp1 : p.1 = c := by
      have := List.find?_some h
      simpa using this
    have hsp := lowerPairs_not_space p (List.mem_of_find?_eq_some h)
    rw [hc, hsp.2, ← hp1, hsp.1]

/-- Lowering a character other than '(' cannot produce '('. -/
theorem pyLowerChar_ne_paren {c : Char} (h : c ≠ '(') : pyLowerChar c ≠ '(' := by
  cases hf : lowerPairs.find? (fun p => p.1 == c) with
  | none => simpa [pyLowerChar, hf] using h
  | some p =>
    have hc : pyLowerChar c = p.2 := by simp [pyLowerChar, hf]
    rw [hc]
    exact lowerPairs_snd_ne_paren p (List.mem_of_find?_eq_some hf)

/-- Lowering a list twice is lowering it once. -/
theorem pyLower_idem (l : List Char) : pyLower (pyLower l) = pyLower l := by
  induction l with
  | nil => rfl
  | cons c t ih =>
    simp only [pyLower, List.map_cons] at ih ⊢
    rw [pyLowerChar_idem, ih]

/-- Dropping a satisfied prefix twice is dropping it once. -/
theorem dropWhile_dropWhile {α : Type} (p : α → Bool) (l : List α) :
    (l.dropWhile p).dropWhile p = l.dropWhile p := by
  induction l with
  | nil => rfl
  | cons c t ih =>
    by_cases h : p c = true
    · simp [List.dropWhile_cons, h, ih]
    · simp [List.dropWhile_cons, h]

/-- lstrip is idempotent. -/
theorem lstrip_idem (l : List Char) : lstrip (lstrip l) = lstrip l := by
  simp [lstrip, dropWhile_dropWhile]

/-- rstrip is idempotent. -/
theorem rstrip_idem (l : List Char) : rstrip (rstrip l) = rstrip l := by
  simp [rstrip, List.reverse_reverse, dropWhile_dropWhile]

/-- Stripping the left end and stripping the right end commute. -/
theorem rstrip_lstrip_comm (l : List Char) : rstrip (lstrip l) = lstrip (rstrip l) := by
  induction l with
  | nil => rfl
  | cons c t ih =>
    by_cases h : pyIsSpace c = true
    · have hl : lstrip (c :: t) = lstrip t := by simp [lstrip, List.dropWhile_cons, h]
      by_cases he : t.reverse.dropWhile pyIsSpace = []
      · have hrt : rstrip t = [] := by simp [rstrip, he]
        have hall : ∀ x ∈ t.reverse, pyIsSpace x = true :=
          List.dropWhile_eq_nil_iff.mp he
        have hlt : lstrip t = [] := by
          apply List.dropWhile_eq_nil_iff.mpr
          intro x hx
          exact hall x (List.mem_reverse.mpr hx)
        have hr : rstrip (c :: t) = [] := by
          simp [rstrip, List.dropWhile_append, he, List.dropWhile_cons, h]
        rw [hl, hlt, hr]
        simp [rstrip, lstrip]
      · have hr : rstrip (c :: t) = c :: rstrip t := by
          simp only [rstrip, List.reverse_cons, List.dropWhile_append,
            List.isEmpty_iff]
          rw [if_neg he]
          simp
        rw [hl, ih, hr]
        simp [lstrip, List.dropWhile_cons, h]
    · have hl : lstrip (c :: t) = c :: t := by simp [lstrip, List.dropWhile_cons, h]
      rw [hl]
      by_cases he : t.reverse.dropWhile pyIsSpace = []
      · have hr : rstrip (c :: t) = [c] := by
          simp [rstrip, List.dropWhile_append, he, List.dropWhile_cons, h]
        rw [hr]
        simp [lstrip, List.dropWhile_cons, h]
      · have hr : rstrip (c :: t) = c :: rstrip t := by
          simp only [rstrip, List.reverse_cons, List.dropWhile_append,
            List.isEmpty_iff]
          rw [if_neg he]
          simp
        rw [hr]
        simp [lstrip, List.dropWhile_cons, h]

/-- strip is idempotent. -/
theorem pyStrip_idem (l : List Char) : pyStrip (pyStrip l) = pyStrip l := by
  simp only [pyStrip]
  rw [← rstrip_lstrip_comm (lstrip l), lstrip_idem, rstrip_idem]

/-- lstrip commutes with lowering. -/
theorem lstrip_pyLower (l : List Char) : lstrip (pyLower l) = pyLower (lstrip l) := by
  have hcomp : (pyIsSpace ∘ pyLowerChar) = pyIsSpace := funext pyIsSpace_pyLowerChar
  simp [lstrip, pyLower, List.dropWhile_map, hcomp]

/-- rstrip commutes with lowering. -/
theorem rstrip_pyLower (l : List Char) : rstrip (pyLower l) = pyLower (rstrip l) := by
  have hcomp : (pyIsSpace ∘ pyLowerChar) = pyIsSpace := funext pyIsSpace_pyLowerChar
  simp [rstrip, pyLower, ← List.map_reverse, List.dropWhile_map, hcomp]

/-- strip commutes with lowering. -/
theorem pyStrip_pyLower (l : List Char) : pyStrip (pyLower l) = pyLower (pyStrip l) := by
  simp [pyStrip, lstrip_pyLower, rstrip_pyLower]

/-- Every character of the stripped list is a character of the list. -/
theorem mem_pyStrip {c : Char} {l : List Char} (h : c ∈ pyStrip l) : c ∈ l := by
  have h1 : c ∈ (lstrip l).reverse.dropWhile pyIsSpace := by
    simpa [pyStrip, rstrip, List.mem_reverse] using h
  have h2 : c ∈ (lstrip l).reverse := (List.dropWhile_sublist pyIsSpace).subset h1
  have h3 : c ∈ l.dropWhile pyIsSpace := by simpa [lstrip, List.mem_reverse] using h2
  exact (List.dropWhile_sublist pyIsSpace).subset h3

/-- A whole-list predicate transfers across dropWhile. -/
theorem forall_dropWhile_iff {α : Type} (p : α → Bool) (l : List α) :
    (∀ c ∈ l.dropWhile p, p c = true) ↔ (∀ c ∈ l, p c = true) := by
  constructor
  · intro h c hc
    rw [← List.takeWhile_append_dropWhile p l] at hc
    rcases List.mem_append.mp hc with h1 | h2
    · exact List.mem_takeWhile_imp h1
    · exact h c h2
  · intro h c hc
    exact h c ((List.dropWhile_sublist p).subset hc)

/-- strip gives the empty list exactly on all-whitespace input. -/
theorem pyStrip_eq_nil_iff (l : List Char) :
    pyStrip l = [] ↔ ∀ c ∈ l, pyIsSpace c = true := by
  simp only [pyStrip, rstrip, lstrip, List.reverse_eq_nil_iff,
    List.dropWhile_eq_nil_iff, List.mem_reverse]
  exact forall_dropWhile_iff pyIsSpace l

/-- cleanQuery with its truthiness guard folded away: the guard is
redundant because every stage maps the empty list to the empty list. -/
theorem cleanQuery_eq (q : List Char) :
    cleanQuery q = pyLower (pyStrip (beforeParen q)) := by
  cases q with
  | nil => rfl
  | cons c t => simp [cleanQuery]

/-- A cleaned query contains no '(' character. -/
theorem cleanQuery_no_paren (q : List Char) : ∀ c ∈ cleanQuery q, c ≠ '(' := by
  intro c hc
  rw [cleanQuery_eq] at hc
  rcases List.mem_map.mp hc with ⟨d, hd, rfl⟩
  have hdq : d ∈ (beforeParen q : List Char) := mem_pyStrip hd
  have hdq2 : d ∈ List.takeWhile (fun c => c != '(') q := hdq
  have : (d != '(') = true := List.mem_takeWhile_imp (p := fun c => c != '(') hdq2
  exact pyLowerChar_ne_paren (by simpa using this)

/-- Truncation at '(' fixes a cleaned query. -/
theorem beforeParen_cleanQuery (q : List Char) :
    beforeParen (cleanQuery q) = cleanQuery q := by
  apply List.takeWhile_eq_self_iff.mpr
  intro c hc
  simpa using cleanQuery_no_paren q c hc

/-- takeWhile passes over a block it accepts wholesale. -/
theorem takeWhile_append_all {α : Type} (p : α → Bool) (u v : List α)
    (h : ∀ c ∈ u, p c = true) : (u ++ v).takeWhile p = u ++ v.takeWhile p := by
  induction u with
  | nil => simp
  | cons a as ih =>
    have ha : p a = true := h a (List.mem_cons_self a as)
    simp only [List.cons_append, List.takeWhile_cons, ha, if_true]
    rw [ih (fun c hc => h c (List.mem_cons_of_mem a hc))]

/-- dropWhile drops a block it accepts wholesale. -/
theorem dropWhile_append_all {α : Type} (p : α → Bool) (u v : List α)
    (h : ∀ c ∈ u, p c = true) : (u ++ v).dropWhile p = v.dropWhile p := by
  induction u with
  | nil => simp
  | cons a as ih =>
    have ha : p a = true := h a (List.mem_cons_self a as)
    simp only [List.cons_append, List.dropWhile_cons, ha, if_true]
    exact ih (fun c hc => h c (List.mem_cons_of_mem a hc))

/-- Stripping ignores one leading whitespace character. -/
theorem pyStrip_cons_space {c : Char} (l : List Char) (h : pyIsSpace c = true) :
    pyStrip (c :: l) = pyStrip l := by
  simp [pyStrip, lstrip, List.dropWhile_cons, h]

/-- The fallback loop reports None only together with the untouched input. -/
theorem bareLabelFallback_none (response : List Char) :
    ∀ agents : List (List Char), (bareLabelFallback response agents).1 = none →
      bareLabelFallback response agents = (none, response) := by
  intro agents
  induction agents with
  | nil => intro _; rfl
  | cons a rest ih =>
    intro h
    by_cases hp : List.isPrefixOf (a ++ [' ']) (pyLower response) = true
    · rw [bareLabelFallback, if_pos hp] at h
      simp at h
    · rw [bareLabelFallback, if_neg hp] at h ⊢
      exact ih h

/-- The fallback loop with no matching label reports (None, input). -/
theorem bareLabelFallback_no_match (response : List Char)
    (agents : List (List Char))
    (h : ∀ a ∈ agents, List.isPrefixOf (a ++ [' ']) (pyLower response) = false) :
    bareLabelFallback response agents = (none, response) := by
  induction agents with
  | nil => rfl
  | cons a rest ih =>
    have ha := h a (List.mem_cons_self a rest)
    rw [bareLabelFallback, if_neg (by simp [ha])]
    exact ih (fun b hb => h b (List.mem_cons_of_mem a hb))

/-- Of two prefixes of one list, the shorter is a prefix of the longer
(stated on the executable isPrefixOf). -/
theorem isPrefixOf_of_le : ∀ (l x y : List Char),
    List.isPrefixOf x l = true → List.isPrefixOf y l = true →
    x.length ≤ y.length → List.isPrefixOf x y = true := by
  intro l
  induction l with
  | nil =>
    intro x y hx _ _
    cases x with
    | nil => simp [List.isPrefixOf]
    | cons a as => simp [List.isPrefixOf] at hx
  | cons c t ih =>
    intro x y hx hy hlen
    cases x with
    | nil => simp [List.isPrefixOf]
    | cons a as =>
      cases y with
      | nil => simp at hlen
      | cons b bs =>
        simp only [List.isPrefixOf, Bool.and_eq_true, beq_iff_eq] at hx hy ⊢
        refine ⟨hx.1.trans hy.1.symm, ?_⟩
        exact ih as bs hx.2 hy.2 (Nat.succ_le_succ_iff.mp (by simpa using hlen))

/-- Two lists of which neither begins the other cannot both begin one list. -/
theorem not_both_prefixes (x y l : List Char)
    (hxy : List.isPrefixOf x y = false) (hyx : List.isPrefixOf y x = false)
    (hx : List.isPrefixOf x l = true) (hy : List.isPrefixOf y l = true) :
    False := by
  rcases Nat.le_total x.length y.length with h | h
  · have := isPrefixOf_of_le l x y hx hy h
    rw [this] at hxy
    exact absurd hxy (by simp)
  · have := isPrefixOf_of_le l y x hy hx h
    rw [this] at hyx
    exact absurd hyx (by simp)

/-- C1 counterexample: the claim says the identifier "BTC" is rejected
with the invalid-format message, but crypto_asset lower-cases before
validating, so "BTC" becomes "btc", passes the regex, and a network
request for coin id "btc" is attempted. -/
theorem crypto_BTC_accepted_cex :
    crypto_asset (("BTC").data) = CryptoStep.request (("btc").data) ∧
    crypto_asset (("BTC").data) ≠ CryptoStep.reject cryptoInvalidMsg := by
  constructor
  · decide
  · decide

/-- C1 amended: "bitcoin-cash" is accepted by the crypto adapter's
validation; "btc$" is rejected with the "Invalid cryptocurrency format"
message and no network request is attempted for it; "BTC" is first
normalized to "btc" by strip-and-lower and is then accepted, so a
network request with coin id "btc" is attempted. -/
theorem crypto_validation_amended :
    crypto_asset (("bitcoin-cash").data) = CryptoStep.request (("bitcoin-cash").data) ∧
    crypto_asset (("btc$").data) = CryptoStep.reject cryptoInvalidMsg ∧
    crypto_asset (("BTC").data) = CryptoStep.request (("btc").data) := by
  refine ⟨by decide, by decide, by decide⟩

/-- C2 counterexample: the raw query "(" is non-empty, yet its cleaned
query (truncate at the first '(', strip, lower) is empty, so the claimed
invariant fails. -/
theorem cleanQuery_paren_cex :
    cleanQuery (("(").data) = [] ∧ (("(").data) ≠ ([] : List Char) := by
  constructor
  · decide
  · decide

/-- C2 amended: the cleaned query is empty exactly when every character
of the raw query before its first '(' is whitespace; in particular a
non-empty raw query that is all whitespace, or that starts with '(',
cleans to the empty string. -/
theorem cleanQuery_empty_iff (q : List Char) :
    cleanQuery q = [] ↔ ∀ c ∈ beforeParen q, pyIsSpace c = true := by
  rw [cleanQuery_eq]
  unfold pyLower
  rw [List.map_eq_nil_iff, pyStrip_eq_nil_iff]

/-- C6: the query-cleaning function of main() (truncate at the first '(',
strip, lower-case) is idempotent: cleaning a cleaned query returns it
unchanged. -/
theorem cleanQuery_idem (q : List Char) :
    cleanQuery (cleanQuery q) = cleanQuery q := by
  rw [cleanQuery_eq (cleanQuery q), beforeParen_cleanQuery, cleanQuery_eq q,
    pyStrip_pyLower, pyStrip_idem, pyLower_idem]

/-- C3: for raw model text of the bracket form "[X] Y" with X non-empty,
no ']' inside the bracket contents X and no ']' inside Y, the runtime
parser returns the intent X stripped of surrounding whitespace and the
raw query Y stripped of surrounding whitespace. -/
theorem parse_bracket_form (X Y : List Char) (_hX : X ≠ [])
    (hXr : ']' ∉ X) (_hYr : ']' ∉ Y) :
    parse_llm_response ('[' :: X ++ ']' :: ' ' :: Y) =
      (some (pyStrip X), pyStrip Y) := by
  have hcond : ('[' :: X ++ ']' :: ' ' :: Y).head? = some '[' ∧
      ']' ∈ ('[' :: X ++ ']' :: ' ' :: Y) := ⟨rfl, by simp⟩
  rw [parse_llm_response, if_pos hcond]
  have hall : ∀ c ∈ ('[' : Char) :: X, (c != ']') = true := by
    intro c hc
    rcases List.mem_cons.mp hc with rfl | hcx
    · decide
    · exact bne_iff_ne.mpr (fun h => hXr (h ▸ hcx))
  have t1 : (']' :: ' ' :: Y).takeWhile (fun c => c != ']') = [] := by
    simp [List.takeWhile_cons]
  have t2 : (']' :: ' ' :: Y).dropWhile (fun c => c != ']') = ']' :: ' ' :: Y := by
    simp [List.dropWhile_cons]
  rw [takeWhile_append_all _ _ _ hall,
    dropWhile_append_all _ _ _ hall, t1, t2, List.append_nil]
  rw [List.drop_succ_cons, List.drop_zero, List.drop_succ_cons, List.drop_zero,
    pyStrip_cons_space Y (by decide)]

/-- C3 witness: the theorem applied at the text "[stock_asset] tsla". -/
theorem parse_bracket_form_witness :
    parse_llm_response ('[' :: ("stock_asset").data ++ ']' :: ' ' :: ("tsla").data) =
      (some (pyStrip (("stock_asset").data)), pyStrip (("tsla").data)) :=
  parse_bracket_form _ _ (by decide) (by decide) (by decide)

/-- C4 counterexample: for the raw text "stock_asset tsla " (with a
trailing space) the runtime parser strips the remainder after the label
prefix: it returns raw_query "tsla", not the literal remainder "tsla ",
so the claim that raw_query equals the remainder after the label prefix
fails. -/
theorem parse_bare_label_cex :
    parse_llm_response (("stock_asset tsla ").data) =
      (some (("stock_asset").data), ("tsla").data) ∧
    (("stock_asset tsla ").data).drop ((("stock_asset").data).length + 1) =
      ("tsla ").data ∧
    ("tsla").data ≠ ("tsla ").data := by
  refine ⟨by decide, by decide, by decide⟩

/-- C4 amended: for raw text that does not match the bracket form and
whose lower-cased form starts with a known intent label followed by a
space, the runtime parser returns that label and the remainder after the
label prefix stripped of surrounding whitespace (for "stock_asset tsla",
intent "stock_asset" and raw_query "tsla"). -/
theorem parse_bare_label (response a : List Char)
    (hnb : ¬ (response.head? = some '[' ∧ ']' ∈ response))
    (ha : a ∈ valid_agents)
    (hp : List.isPrefixOf (a ++ [' ']) (pyLower response) = true) :
    parse_llm_response response =
      (some a, pyStrip (response.drop (a.length + 1))) := by
  rw [parse_llm_response, if_neg hnb]
  simp only [valid_agents, List.mem_cons, List.not_mem_nil, or_false] at ha
  rcases ha with rfl | rfl | rfl | rfl
  · rw [valid_agents, bareLabelFallback, if_pos hp]
  · have hc : List.isPrefixOf ((("crypto_asset").data) ++ [' ']) (pyLower response) = false := by
      by_contra hne
      rw [Bool.not_eq_false] at hne
      exact not_both_prefixes _ _ _ (by decide) (by decide) hne hp
    rw [valid_agents, bareLabelFallback, if_neg (by rw [hc]; simp),
      bareLabelFallback, if_pos hp]
  · have hc : List.isPrefixOf ((("crypto_asset").data) ++ [' ']) (pyLower response) = false := by
      by_contra hne
      rw [Bool.not_eq_false] at hne
      exact not_both_prefixes _ _ _ (by decide) (by decide) hne hp
    have hs : List.isPrefixOf ((("stock_asset").data) ++ [' ']) (pyLower response) = false := by
      by_contra hne
      rw [Bool.not_eq_false] at hne
      exact not_both_prefixes _ _ _ (by decide) (by decide) hne hp
    rw [valid_agents, bareLabelFallback, if_neg (by rw [hc]; simp),
      bareLabelFallback, if_neg (by rw [hs]; simp), bareLabelFallback, if_pos hp]
  · have hc : List.isPrefixOf ((("crypto_asset").data) ++ [' ']) (pyLower response) = false := by
      by_contra hne
      rw [Bool.not_eq_false] at hne
      exact not_both_prefixes _ _ _ (by decide) (by decide) hne hp
    have hs : List.isPrefixOf ((("stock_asset").data) ++ [' ']) (pyLower response) = false := by
      by_contra hne
      rw [Bool.not_eq_false] at hne
      exact not_both_prefixes _ _ _ (by decide) (by decide) hne hp
    have hw : List.isPrefixOf ((("weather_asset").data) ++ [' ']) (pyLower response) = false := by
      by_contra hne
      rw [Bool.not_eq_false] at hne
      exact not_both_prefixes _ _ _ (by decide) (by decide) hne hp
    rw [valid_agents, bareLabelFallback, if_neg (by rw [hc]; simp),
      bareLabelFallback, if_neg (by rw [hs]; simp),
      bareLabelFallback, if_neg (by rw [hw]; simp), bareLabelFallback, if_pos hp]

/-- C4 witness: the amended theorem applied at the text "stock_asset tsla". -/
theorem parse_bare_label_witness :
    parse_llm_response (("stock_asset tsla").data) =
      (some (("stock_asset").data),
        pyStrip ((("stock_asset tsla").data).drop ((("stock_asset").data).length + 1))) :=
  parse_bare_label _ _ (by decide) (by decide) (by decide)

/-- C5: raw text that neither matches the bracket form nor starts
(case-insensitively) with any known intent label followed by a space
parses to intent None with raw_query the input string completely
unchanged. -/
theorem parse_no_match (response : List Char)
    (hnb : ¬ (response.head? = some '[' ∧ ']' ∈ response))
    (hpre : ∀ a ∈ valid_agents,
      List.isPrefixOf (a ++ [' ']) (pyLower response) = false) :
    parse_llm_response response = (none, response) := by
  rw [parse_llm_response, if_neg hnb]
  exact bareLabelFallback_no_match response valid_agents hpre

/-- C5 witness: the theorem applied at "I think the weather is nice". -/
theorem parse_no_match_witness :
    parse_llm_response (("I think the weather is nice").data) =
      (none, ("I think the weather is nice").data) :=
  parse_no_match _ (by decide) (by decide)

/-- C7: a truthy parsed agent type outside the four registered labels
makes the dispatcher print the "Unknown agent type" notice naming that
label, with no adapter invoked and no summarization. -/
theorem route_unknown_agent (env : TurnEnv) (a rawQuery llmResponse : List Char)
    (h1 : a ≠ []) (h2 : a ∉ valid_agents) :
    route env (some a) rawQuery llmResponse =
      { printed := [("Assistant: Unknown agent type: ").data ++ a],
        adapterCalled := none, summarizeCalled := false } := by
  simp only [route]
  rw [if_neg h1, if_pos h2]

/-- C7 witness: the theorem applied at label "currency_asset". -/
theorem route_unknown_agent_witness :
    route trivialEnv (some (("currency_asset").data)) [] [] =
      { printed := [("Assistant: Unknown agent type: ").data ++ ("currency_asset").data],
        adapterCalled := none, summarizeCalled := false } :=
  route_unknown_agent trivialEnv _ [] [] (by decide) (by decide)

/-- C8: a turn routed to web_asset in which the web adapter returns an
empty item list prints "No relevant results found." and never invokes
summarization on that turn. -/
theorem route_web_no_results (env : TurnEnv) (rawQuery llmResponse : List Char)
    (h : env.webAsset (cleanQuery rawQuery) = WebResult.items []) :
    route env (some (("web_asset").data)) rawQuery llmResponse =
      { printed := [("Assistant: No relevant results found.").data],
        adapterCalled := some (("web_asset").data), summarizeCalled := false } := by
  simp only [route]
  rw [if_neg (show ¬ (("web_asset").data = ([] : List Char)) by decide),
    if_neg (show ¬ (("web_asset").data ∉ valid_agents) by decide),
    if_pos trivial, h]

/-- C8 witness: the theorem applied in an environment whose web adapter
returns no items. -/
theorem route_web_no_results_witness :
    route trivialEnv (some (("web_asset").data)) [] [] =
      { printed := [("Assistant: No relevant results found.").data],
        adapterCalled := some (("web_asset").data), summarizeCalled := false } :=
  route_web_no_results trivialEnv [] [] rfl

/-- C9: the runtime parser is total: every input yields an
(intent, raw_query) pair, and whenever the intent is None the raw query
is the full input (the behaviour of the except fallback, whose body is
in fact unreachable because no operation in the try block raises). -/
theorem parse_total (response : List Char) :
    ∃ intent rawQuery, parse_llm_response response = (intent, rawQuery) ∧
      (intent = none → rawQuery = response) := by
  refine ⟨(parse_llm_response response).1, (parse_llm_response response).2, rfl, ?_⟩
  intro h
  by_cases hb : response.head? = some '[' ∧ ']' ∈ response
  · rw [parse_llm_response, if_pos hb] at h
    simp at h
  · rw [parse_llm_response, if_neg hb] at h ⊢
    rw [bareLabelFallback_none response valid_agents h]

/-- C10: for model text of the form "[]..." (empty bracket contents) the
runtime parser returns the empty string as agent type; the dispatcher's
truthiness check treats the empty string as falsy, so the turn takes the
general-answer path, printing the raw model text and not the unknown
agent notice, with no adapter invoked. -/
theorem parse_empty_bracket (env : TurnEnv) (rest : List Char) :
    parse_llm_response ('[' :: ']' :: rest) = (some [], pyStrip rest) ∧
    runTurn env ('[' :: ']' :: rest) =
      { printed := [("Assistant: ").data ++ ('[' :: ']' :: rest)],
        adapterCalled := none, summarizeCalled := false } := by
  have hcond : ('[' :: ']' :: rest).head? = some '[' ∧
      ']' ∈ ('[' :: ']' :: rest) := ⟨rfl, by simp⟩
  have hbne : (('[' : Char) != ']') = true := by decide
  have hparse : parse_llm_response ('[' :: ']' :: rest) = (some [], pyStrip rest) := by
    rw [parse_llm_response, if_pos hcond]
    have t1 : ('[' :: ']' :: rest).takeWhile (fun c => c != ']') = ['['] := by
      simp [List.takeWhile_cons, hbne]
    have t2 : ('[' :: ']' :: rest).dropWhile (fun c => c != ']') = ']' :: rest := by
      simp [List.dropWhile_cons, hbne]
    rw [t1, t2]
    rfl
  refine ⟨hparse, ?_⟩
  rw [runTurn, hparse]
  rfl

end AgentRouter
